import Mathlib

/-!
Verification development for the `transformations` repository: an interactive
2D vector-shape editor (Rust/yew).  The Rust sources are shallowly embedded:

* `f32` coordinates are embedded as exact rationals `ℚ`.  The transcendental
  `f32` operations (`cos`, `sin`, `sqrt`, `atan2`, the constant `PI`) have no
  exact rational counterpart, so they are abstracted as the parameter record
  `FloatOps`; every theorem about code that uses them holds for an arbitrary
  such record.  Division is Lean's total field division (`q / 0 = 0`); the
  only division performed by the hit test is proved to have a nonzero
  divisor, and the one genuinely zero-divisor site in the event handler is
  analysed explicitly.
* `Rc<RefCell<Shape>>` shared-mutable cells are embedded as an explicit heap:
  a list of `Shape`s indexed by allocation order, with the collection and the
  selection holding indices into that heap.
* The yew `update` method becomes a pure step function on the app state that
  additionally reports the re-render flag, emitted alert messages and the
  JSON document offered for download.
* For the claims whose truth depends on rounding, a second, bit-exact model
  of binary32 round-to-nearest-even arithmetic (`F32`: integer
  significand–exponent pairs) evaluates the same source formulas under
  `f32` semantics.  It covers the finite normal range — no NaN, infinities,
  signed zeros or subnormals — within which it coincides with IEEE-754, and
  every value arising in the evaluations below stays in that range.
-/

/-- Planar vector of rational coordinates; embeds `Vector2f = Vector<f32, 2>`
from `src/vec.rs` (the two-element array `data` with accessors `x()`/`y()`
becomes a two-field structure). -/
structure Vector2f where
  x : ℚ
  y : ℚ
deriving DecidableEq, Repr

namespace Vector2f

/-- Embeds `Vector::new_with_data` / the `Vector2f::new` constructor. -/
def new (x y : ℚ) : Vector2f := ⟨x, y⟩

/-- Embeds the `Add` impl from `src/vec.rs`. -/
instance : Add Vector2f := ⟨fun a b => ⟨a.x + b.x, a.y + b.y⟩⟩

/-- Embeds the `Sub` impl from `src/vec.rs`. -/
instance : Sub Vector2f := ⟨fun a b => ⟨a.x - b.x, a.y - b.y⟩⟩

theorem add_def (a b : Vector2f) : a + b = ⟨a.x + b.x, a.y + b.y⟩ := rfl

theorem sub_def (a b : Vector2f) : a - b = ⟨a.x - b.x, a.y - b.y⟩ := rfl

end Vector2f

/-- Abstraction of the `f32` transcendental functions and the constant `PI`
used by `src/vec.rs` and `src/main.rs`.  These have no exact counterpart on
`ℚ`, so the embedding takes them as parameters; theorems hold for every
instantiation. -/
structure FloatOps where
  cos : ℚ → ℚ
  sin : ℚ → ℚ
  sqrt : ℚ → ℚ
  atan2 : ℚ → ℚ → ℚ
  pi : ℚ

namespace Vector2f

/-- Embeds `Vector2f::length` (`sqrt(x*x + y*y)`) from `src/vec.rs`. -/
def length (F : FloatOps) (v : Vector2f) : ℚ := F.sqrt (v.x * v.x + v.y * v.y)

/-- Embeds `Vector2f::angle` (`y.atan2(x)`) from `src/vec.rs`. -/
def angle (F : FloatOps) (v : Vector2f) : ℚ := F.atan2 v.y v.x

end Vector2f

/-- Embeds `Shape` from `src/shape.rs`: an ordered list of points. -/
structure Shape where
  points : List Vector2f
deriving DecidableEq, Repr

namespace Shape

/-- Embeds `Shape::new` (empty point list). -/
def new : Shape := ⟨[]⟩

/-- Embeds `Shape::add_point` (push onto the point list). -/
def add_point (s : Shape) (p : Vector2f) : Shape := ⟨s.points ++ [p]⟩

/-- Embeds `Shape::shift`: every point moved by `shift` componentwise. -/
def shift (s : Shape) (d : Vector2f) : Shape :=
  ⟨s.points.map fun p => ⟨p.x + d.x, p.y + d.y⟩⟩

/-- Embeds `Shape::rotate_rel_to_point`: every point rotated about `point`
using the abstracted `cos`/`sin` of `angle`. -/
def rotate_rel_to_point (F : FloatOps) (s : Shape) (angle : ℚ) (point : Vector2f) : Shape :=
  ⟨s.points.map fun pt =>
    ⟨point.x + (pt.x - point.x) * F.cos angle - (pt.y - point.y) * F.sin angle,
     point.y + (pt.x - point.x) * F.sin angle + (pt.y - point.y) * F.cos angle⟩⟩

/-- Embeds `Shape::scale_rel_to_point`: every point scaled about `point`
with independent x/y factors. -/
def scale_rel_to_point (s : Shape) (scale point : Vector2f) : Shape :=
  ⟨s.points.map fun pt =>
    ⟨point.x + (pt.x - point.x) * scale.x,
     point.y + (pt.y - point.y) * scale.y⟩⟩

end Shape

/-- The crossing condition of one loop iteration of
`Shape::intersect_with_point` (`src/shape.rs` line 59):
`(pt.y() > point.y()) != (prev_point.y() > point.y())`. -/
def edgeCrosses (q prev pt : Vector2f) : Bool :=
  decide (pt.y > q.y) != decide (prev.y > q.y)

/-- The x-intersection computed inside `Shape::intersect_with_point`
(`src/shape.rs` line 60):
`(point.y() - pt.y()) * (prev_point.x() - pt.x()) / (prev_point.y() - pt.y()) + pt.x()`. -/
def edgeX (q prev pt : Vector2f) : ℚ :=
  (q.y - pt.y) * (prev.x - pt.x) / (prev.y - pt.y) + pt.x

/-- One iteration of the loop body of `Shape::intersect_with_point`: the
state carries the running `prev_point` and the crossing counter. -/
def intersectStep (q : Vector2f) (st : Vector2f × Nat) (pt : Vector2f) : Vector2f × Nat :=
  (pt, if edgeCrosses q st.1 pt && decide (edgeX q st.1 pt > q.x) then st.2 + 1 else st.2)

/-- Embeds `Shape::intersect_with_point` (`src/shape.rs` lines 52-69):
`prev_point` starts at `points.last()` (returning `false` when the list is
empty), the loop runs over all points, and the result is whether the
crossing counter is odd. -/
def Shape.intersect_with_point (s : Shape) (q : Vector2f) : Bool :=
  match s.points.getLast? with
  | none => false
  | some last => (s.points.foldl (intersectStep q) (last, 0)).2 % 2 == 1

/-- The edge list of a shape as described by the specification: consecutive
point pairs `(prev, curr)` with wraparound from the last point to the first. -/
def specEdges (s : Shape) : List (Vector2f × Vector2f) :=
  match s.points.getLast? with
  | none => []
  | some last => (last :: s.points).zip s.points

/-- The even-odd ray-casting hit test exactly as the specification words it:
count the edges `(prev, curr)` whose y-span crosses `point.y` and whose
interpolated x-intersection lies strictly right of `point.x`; return true
iff the count is odd. -/
def specHitTest (s : Shape) (q : Vector2f) : Bool :=
  ((specEdges s).countP fun e => edgeCrosses q e.1 e.2 && decide (edgeX q e.1 e.2 > q.x)) % 2 == 1

/-- The square `[(0,0),(10,0),(10,10),(0,10)]` from the specification's hit
test boundary cases. -/
def squareShape : Shape :=
  ⟨[⟨0, 0⟩, ⟨10, 0⟩, ⟨10, 10⟩, ⟨0, 10⟩]⟩

/-- The crossing counter computed by the fold equals the number of counted
edges among the pairs `(prev, curr)` formed by zipping the point list against
itself shifted by the starting `prev`. -/
theorem foldl_intersectStep_count (q : Vector2f) (l : List Vector2f) :
    ∀ (prev : Vector2f) (n : Nat),
      (l.foldl (intersectStep q) (prev, n)).2
        = n + ((prev :: l).zip l).countP
            (fun e => edgeCrosses q e.1 e.2 && decide (edgeX q e.1 e.2 > q.x)) := by
  induction l with
  | nil => intro prev n; simp
  | cons p tl ih =>
      intro prev n
      simp only [List.foldl_cons, List.zip_cons_cons, List.countP_cons, intersectStep, ih p]
      cases hc : edgeCrosses q prev p && decide (edgeX q prev p > q.x) <;> simp [hc] <;> omega

/-- The hit test of the source agrees with the specification's formulation
(count crossing edges over the wraparound edge list; odd count means
inside). -/
theorem intersect_eq_specHitTest (s : Shape) (q : Vector2f) :
    s.intersect_with_point q = specHitTest s q := by
  unfold Shape.intersect_with_point specHitTest specEdges
  cases h : s.points.getLast? with
  | none => rfl
  | some last => simp [foldl_intersectStep_count]

/-- The crossing condition is symmetric in the two edge endpoints. -/
theorem edgeCrosses_comm (q a b : Vector2f) : edgeCrosses q b a = edgeCrosses q a b := by
  unfold edgeCrosses
  cases hd : decide (a.y > q.y) <;> cases he : decide (b.y > q.y) <;> simp [hd, he]

/-- When the crossing condition holds the two endpoint y-coordinates
differ. -/
theorem edgeCrosses_y_ne (q prev pt : Vector2f) (h : edgeCrosses q prev pt = true) :
    prev.y ≠ pt.y := by
  unfold edgeCrosses at h
  intro he
  rw [he] at h
  simp at h

/-- For endpoints with distinct y-coordinates, the interpolated
x-intersection of the degenerate back-and-forth edge pair is the same in
both directions. -/
theorem edgeX_swap (q a b : Vector2f) (h : a.y ≠ b.y) : edgeX q b a = edgeX q a b := by
  unfold edgeX
  have h1 : b.y - a.y ≠ 0 := sub_ne_zero.mpr (Ne.symm h)
  have h2 : a.y - b.y ≠ 0 := sub_ne_zero.mpr h
  field_simp
  ring

/-- Claim C1: the point-in-polygon hit test follows the even-odd
ray-casting rule over the wraparound edge list — it agrees with the
edge-counting formulation `specHitTest` on every shape and query point —
and on the square `[(0,0),(10,0),(10,10),(0,10)]` it accepts `(5,5)` and
rejects `(15,5)`. -/
theorem C1_hitTest_even_odd :
    (∀ (s : Shape) (q : Vector2f), s.intersect_with_point q = specHitTest s q)
      ∧ squareShape.intersect_with_point ⟨5, 5⟩ = true
      ∧ squareShape.intersect_with_point ⟨15, 5⟩ = false := by
  refine ⟨intersect_eq_specHitTest, ?_, ?_⟩ <;>
    norm_num [Shape.intersect_with_point, intersectStep, edgeCrosses, edgeX, squareShape]

/-- Under the exact-arithmetic embedding, a shape with at most two points
is never hit: with zero points the test returns false immediately, with
one point no edge can cross, and with two points the two degenerate edges
have exactly equal interpolated x-intersections, so crossings come in
pairs and the count is even.  This is the intent the specification states
for the degenerate cases; the `f32` program does NOT satisfy it, because
rounding can separate the two intersections by one ulp — see the bit-exact
binary32 evaluation `C2_two_point_f32_hit` at the end of the file. -/
theorem hitTest_degenerate_exact (s : Shape) (h : s.points.length ≤ 2) (q : Vector2f) :
    s.intersect_with_point q = false := by
  obtain ⟨ps⟩ := s
  match ps with
  | [] => rfl
  | [a] =>
      simp [Shape.intersect_with_point, intersectStep, edgeCrosses]
  | [a, b] =>
      have hunf : Shape.intersect_with_point ⟨[a, b]⟩ q
          = ((intersectStep q (intersectStep q (b, 0) a) b).2 % 2 == 1) := rfl
      rw [hunf]
      simp only [intersectStep]
      cases hc : edgeCrosses q a b with
      | false =>
          rw [edgeCrosses_comm q a b, hc]
          simp
      | true =>
          have hy : a.y ≠ b.y := edgeCrosses_y_ne q a b hc
          rw [edgeCrosses_comm q a b, edgeX_swap q a b hy, hc]
          by_cases hgt : edgeX q a b > q.x <;> simp [hgt]
  | a :: b :: c :: tl =>
      simp at h

/-- Claim C8 (amended): scaling a shape uniformly by `k1` and then by `k2`
about the same pivot equals scaling once by `k1·k2` about that pivot — in
exact (rounding-free) arithmetic, i.e. for the ideal transform the code
implements up to `f32` rounding.  The `f32` program itself satisfies this
only up to rounding: the two sides can differ by one ulp, see the
bit-exact counterexample `C8_scale_comp_f32_counterexample` at the end of
the file. -/
theorem C8_scale_comp (s : Shape) (k1 k2 : ℚ) (piv : Vector2f) :
    (s.scale_rel_to_point ⟨k1, k1⟩ piv).scale_rel_to_point ⟨k2, k2⟩ piv
      = s.scale_rel_to_point ⟨k1 * k2, k1 * k2⟩ piv := by
  refine congrArg Shape.mk ?_
  simp only [Shape.scale_rel_to_point, List.map_map]
  refine List.map_congr_left fun p _ => ?_
  simp only [Function.comp]
  congr 1 <;> ring

/-- Claim C9: whenever the crossing condition of the hit test holds for an
edge, the divisor `prev.y - pt.y` of the x-interpolation is nonzero, so the
division inside `Shape.intersect_with_point` never has a zero divisor. -/
theorem C9_edge_divisor_ne_zero (q prev pt : Vector2f)
    (h : edgeCrosses q prev pt = true) : prev.y - pt.y ≠ 0 :=
  fun h0 => edgeCrosses_y_ne q prev pt h (sub_eq_zero.mp h0)

/-- Closed witness for C9: the left edge of the square crosses the ray at
height 5 and its y-extent is nonzero. -/
theorem C9_edge_divisor_ne_zero_witness :
    edgeCrosses ⟨5, 5⟩ ⟨0, 10⟩ ⟨0, 0⟩ = true
      ∧ (Vector2f.mk 0 10).y - (Vector2f.mk 0 0).y ≠ 0 :=
  ⟨by decide, C9_edge_divisor_ne_zero ⟨5, 5⟩ ⟨0, 10⟩ ⟨0, 0⟩ (by decide)⟩

/-- JSON value tree used by the persistence format.  `serde_json` values are
restricted to what the format ever produces or inspects; numbers are the
exact rationals that embed the `f32` coordinates. -/
inductive Json where
  | null
  | bool (b : Bool)
  | num (q : ℚ)
  | str (s : String)
  | arr (items : List Json)

/-- Sequence (de)serialization as serde performs it: every element must
deserialize, else the whole sequence fails. -/
def traverseOpt (f : α → Option β) : List α → Option (List β)
  | [] => some []
  | a :: l =>
      match f a with
      | none => none
      | some b =>
          match traverseOpt f l with
          | none => none
          | some bs => some (b :: bs)

/-- Embeds `impl Serialize for Vector2f` (`src/vec.rs` lines 126-136): a
vector serializes as the two-element sequence `[x, y]`. -/
def serializeVec (v : Vector2f) : Json := Json.arr [Json.num v.x, Json.num v.y]

/-- Embeds `impl Deserialize for Vector2f` (`src/vec.rs` lines 138-163): a
vector parses only from a sequence of numbers; fewer than two elements is
an `invalid_length` error, and (modelled from the spec: serde_json rejects
trailing sequence elements, the spec requires a "2-element numeric pair")
more than two elements also fails. -/
def deserializeVec : Json → Option Vector2f
  | .arr [.num x, .num y] => some ⟨x, y⟩
  | _ => none

/-- Modelled from the spec: the derived serde impls for `Shape` are
generated code not present under `src/`; per spec section 6 each shape is
"a JSON array of `[x, y]` numeric pairs". -/
def serializeShape (s : Shape) : Json := Json.arr (s.points.map serializeVec)

/-- Modelled from the spec: derived serde deserialization of one `Shape` —
a shape entry must be a list, and every element must parse as a point. -/
def deserializeShape : Json → Option Shape
  | .arr items => (traverseOpt deserializeVec items).map fun ps => ⟨ps⟩
  | _ => none

/-- Embeds the serialization of `Msg::Save` (`src/main.rs` lines 454-462):
the whole collection is a JSON array of shapes. -/
def serializeShapes (l : List Shape) : Json := Json.arr (l.map serializeShape)

/-- Embeds the parse of `Msg::Load` (`serde_json::from_str::<Vec<Shape>>`):
the document must be a JSON array and every entry must parse as a shape. -/
def deserializeShapes : Json → Option (List Shape)
  | .arr items => traverseOpt deserializeShape items
  | _ => none

/-- A shape built by a sequence of `add_point` calls starting from
`Shape.new`. -/
def buildShape (ps : List Vector2f) : Shape := ps.foldl Shape.add_point Shape.new

theorem traverseOpt_map_of {α : Type} (g : α → Json) (f : Json → Option α)
    (hf : ∀ a, f (g a) = some a) (l : List α) : traverseOpt f (l.map g) = some l := by
  induction l with
  | nil => rfl
  | cons a t ih => simp [traverseOpt, hf, ih]

theorem deserializeVec_serializeVec (v : Vector2f) :
    deserializeVec (serializeVec v) = some v := rfl

theorem deserializeShape_serializeShape (s : Shape) :
    deserializeShape (serializeShape s) = some s := by
  show (traverseOpt deserializeVec (s.points.map serializeVec)).map (fun ps => Shape.mk ps)
      = some s
  rw [traverseOpt_map_of serializeVec deserializeVec deserializeVec_serializeVec]
  rfl

theorem deserializeShapes_serializeShapes (l : List Shape) :
    deserializeShapes (serializeShapes l) = some l := by
  show traverseOpt deserializeShape (l.map serializeShape) = some l
  rw [traverseOpt_map_of serializeShape deserializeShape deserializeShape_serializeShape]

/-- Embeds the `Mode` enum from `src/main.rs`. -/
inductive Mode where
  | draw
  | rotate
  | scale
  | shift
deriving DecidableEq, Repr

/-- Embeds the `Msg` enum from `src/main.rs`; mouse events carry the
canvas-space offset point already converted to coordinates, and `load`
carries the parsed JSON document text as a value tree. -/
inductive Msg where
  | mouseDown (pos : Vector2f)
  | mouseUp
  | mouseMove (pos : Vector2f)
  | mouseLeave
  | shiftDown
  | shiftUp
  | modeChange (m : Mode)
  | clear
  | save
  | load (j : Json)
  | none
  | finishShape
  | shiftVectorChange (v : Vector2f)
  | scaleVectorChange (v : Vector2f)
  | rotateAngleChange (a : ℚ)
  | applyTransform
  | pivotChange (v : Vector2f)
  | ctrlDown
  | ctrlUp

/-- Embeds the `App` component state from `src/main.rs` (lines 40-57).  The
`Rc<RefCell<Shape>>` cells are represented by an explicit `heap` of shapes
indexed by allocation order; `shapes` and `selected_shape` hold indices
into that heap.  The `canvas`/`canvas_ctx` fields are rendering plumbing
and are outside the model. -/
structure AppState where
  mode : Mode
  heap : List Shape
  shapes : List Nat
  pivot : Option Vector2f
  is_mouse_down : Bool
  mouse_origin : Option Vector2f
  mouse_pos : Option Vector2f
  mouse_delta : Option Vector2f
  selected_shape : Option Nat
  shift_is_down : Bool
  ctrl_is_down : Bool
  shift_vector : Vector2f
  scale_vector : Vector2f
  rotate_angle : ℚ
deriving DecidableEq, Repr

/-- Mutation through one `Rc<RefCell<Shape>>` handle: replace the shape at
heap index `i` by `f` of it. -/
def heapModify (h : List Shape) (i : Nat) (f : Shape → Shape) : List Shape :=
  h.set i (f (h.getD i Shape.new))

/-- Embeds the repeated selection scan of `src/main.rs`
(`self.shapes.iter().find_map(...)`): the first shape in collection order
whose hit test accepts `pos`. -/
def findShape (s : AppState) (pos : Vector2f) : Option Nat :=
  s.shapes.findSome? fun i =>
    if (s.heap.getD i Shape.new).intersect_with_point pos then some i else none

/-- Result of one `App::update` call: the new state, the re-render flag the
method returns, the alert messages shown via
`window().alert_with_message`, and the JSON document offered for download
by `Msg::Save`. -/
structure UpdateOut where
  state : AppState
  rerender : Bool
  alerts : List String
  saved : Option Json

/-- Embeds `App::update` from `src/main.rs` (lines 324-560): one message
processed against the current state. -/
def update (F : FloatOps) (msg : Msg) (s : AppState) : UpdateOut :=
  match msg with
  | .mouseDown pos =>
      if s.shift_is_down then
        ⟨{ s with pivot := some pos }, true, [], Option.none⟩
      else if s.ctrl_is_down then
        ⟨{ s with selected_shape := findShape s pos }, true, [], Option.none⟩
      else
        let s1 :=
          match s.mode with
          | .draw =>
              let s0 := if s.shapes.isEmpty then
                  { s with heap := s.heap ++ [Shape.new], shapes := s.shapes ++ [s.heap.length] }
                else s
              match s0.shapes.getLast? with
              | some i => { s0 with heap := heapModify s0.heap i fun sh => sh.add_point pos }
              | Option.none => s0
          | .rotate => { s with mouse_pos := some pos }
          | .scale => { s with mouse_pos := some pos }
          | .shift =>
              if s.mouse_origin.isNone then { s with mouse_origin := some pos } else s
        ⟨{ s1 with selected_shape := findShape s1 pos, is_mouse_down := true },
          true, [], Option.none⟩
  | .mouseUp =>
      ⟨{ s with
          is_mouse_down := false
          mouse_origin := Option.none
          mouse_pos := Option.none
          mouse_delta := Option.none }, true, [], Option.none⟩
  | .mouseMove pos =>
      let delta :=
        match s.mouse_pos with
        | some prev => some (pos - prev)
        | Option.none => Option.none
      let mp := if s.is_mouse_down then some pos else Option.none
      let s1 := { s with mouse_delta := delta, mouse_pos := mp }
      let s2 :=
        match s1.mode with
        | .rotate =>
            match s1.pivot, s1.mouse_delta, s1.mouse_pos, s1.selected_shape with
            | some piv, some d, some m, some i =>
                let angle := (m - piv).angle F - (m - d - piv).angle F
                { s1 with heap := heapModify s1.heap i fun sh =>
                    sh.rotate_rel_to_point F angle piv }
            | _, _, _, _ => s1
        | .scale =>
            match s1.pivot, s1.mouse_delta, s1.mouse_pos, s1.selected_shape with
            | some piv, some d, some m, some i =>
                let sc := (m - piv).length F / (m - d - piv).length F
                { s1 with heap := heapModify s1.heap i fun sh =>
                    sh.scale_rel_to_point ⟨sc, sc⟩ piv }
            | _, _, _, _ => s1
        | .shift =>
            match s1.mouse_delta, s1.selected_shape with
            | some d, some i =>
                { s1 with heap := heapModify s1.heap i fun sh => sh.shift d }
            | _, _ => s1
        | .draw => s1
      ⟨s2, true, [], Option.none⟩
  | .mouseLeave => ⟨s, false, [], Option.none⟩
  | .shiftDown => ⟨{ s with shift_is_down := true }, true, [], Option.none⟩
  | .shiftUp => ⟨{ s with shift_is_down := false }, true, [], Option.none⟩
  | .modeChange m => ⟨{ s with mode := m }, true, [], Option.none⟩
  | .clear => ⟨{ s with shapes := [] }, true, [], Option.none⟩
  | .save =>
      ⟨s, false, [],
        some (serializeShapes (s.shapes.map fun i => s.heap.getD i Shape.new))⟩
  | .load j =>
      match deserializeShapes j with
      | some shs =>
          ⟨{ s with
              heap := s.heap ++ shs
              shapes := (List.range shs.length).map fun k => s.heap.length + k },
            true, [], Option.none⟩
      | Option.none => ⟨s, false, ["Invalid JSON file"], Option.none⟩
  | .finishShape =>
      ⟨{ s with heap := s.heap ++ [Shape.new], shapes := s.shapes ++ [s.heap.length] },
        true, [], Option.none⟩
  | .shiftVectorChange v => ⟨{ s with shift_vector := v }, true, [], Option.none⟩
  | .scaleVectorChange v => ⟨{ s with scale_vector := v }, true, [], Option.none⟩
  | .rotateAngleChange a => ⟨{ s with rotate_angle := a }, true, [], Option.none⟩
  | .applyTransform =>
      match s.selected_shape with
      | some i =>
          let radians := s.rotate_angle * (F.pi / 180)
          let piv := s.pivot.getD ⟨0, 0⟩
          let h1 := heapModify s.heap i fun sh => sh.shift s.shift_vector
          let h2 := heapModify h1 i fun sh => sh.scale_rel_to_point s.scale_vector piv
          let h3 := heapModify h2 i fun sh => sh.rotate_rel_to_point F radians piv
          ⟨{ s with heap := h3 }, true, [], Option.none⟩
      | Option.none => ⟨s, true, [], Option.none⟩
  | .pivotChange v => ⟨{ s with pivot := some v }, true, [], Option.none⟩
  | .ctrlDown => ⟨{ s with ctrl_is_down := true }, true, [], Option.none⟩
  | .ctrlUp => ⟨{ s with ctrl_is_down := false }, true, [], Option.none⟩
  | .none => ⟨s, false, [], Option.none⟩

/-- One concrete instantiation of the abstracted `f32` operations (all
zero), used for closed instances; the theorems themselves hold for every
instantiation. -/
def zeroOps : FloatOps := ⟨fun _ => 0, fun _ => 0, fun _ => 0, fun _ _ => 0, 0⟩

/-- Concrete app state used in closed instances: one one-point shape on the
heap, selected, pivot set to the origin, mid-drag in Scale mode with the
previous pointer position exactly on the pivot. -/
def dragState : AppState where
  mode := Mode.scale
  heap := [⟨[⟨1, 2⟩]⟩]
  shapes := [0]
  pivot := some ⟨0, 0⟩
  is_mouse_down := true
  mouse_origin := Option.none
  mouse_pos := some ⟨0, 0⟩
  mouse_delta := Option.none
  selected_shape := some 0
  shift_is_down := false
  ctrl_is_down := false
  shift_vector := ⟨0, 0⟩
  scale_vector := ⟨1, 1⟩
  rotate_angle := 0

theorem getD_set_self {α : Type} :
    ∀ (l : List α) (i : Nat) (x d : α), i < l.length → (l.set i x).getD i d = x
  | [], _, _, _, h => absurd h (by simp)
  | _ :: _, 0, _, _, _ => rfl
  | _ :: t, n + 1, x, d, h => getD_set_self t n x d (Nat.lt_of_succ_lt_succ h)

theorem getD_set_ne {α : Type} :
    ∀ (l : List α) (i j : Nat) (x d : α), i ≠ j → (l.set i x).getD j d = l.getD j d
  | [], _, _, _, _, _ => rfl
  | _ :: _, 0, 0, _, _, h => absurd rfl h
  | _ :: _, 0, _ + 1, _, _, _ => rfl
  | _ :: _, _ + 1, 0, _, _, _ => rfl
  | _ :: t, i + 1, j + 1, x, d, h => getD_set_ne t i j x d fun e => h (congrArg Nat.succ e)

theorem heapModify_getD_self (h : List Shape) (i : Nat) (f : Shape → Shape)
    (hi : i < h.length) :
    (heapModify h i f).getD i Shape.new = f (h.getD i Shape.new) :=
  getD_set_self h i _ _ hi

theorem heapModify_getD_ne (h : List Shape) (i j : Nat) (f : Shape → Shape)
    (hij : i ≠ j) :
    (heapModify h i f).getD j Shape.new = h.getD j Shape.new :=
  getD_set_ne h i j _ _ hij

theorem heapModify_length (h : List Shape) (i : Nat) (f : Shape → Shape) :
    (heapModify h i f).length = h.length := by
  simp [heapModify]

/-- Claim C3 (amended): the Clear command empties the shape collection but
leaves the current selection and the pivot exactly as they were. -/
theorem C3_clear_empties_collection_only (F : FloatOps) (s : AppState) :
    (update F Msg.clear s).state.shapes = []
      ∧ (update F Msg.clear s).state.pivot = s.pivot
      ∧ (update F Msg.clear s).state.selected_shape = s.selected_shape :=
  ⟨rfl, rfl, rfl⟩

/-- Counterexample to claim C3 as stated: on a state with a pivot and a
selection, Clear leaves both set — neither is dropped. -/
theorem C3_clear_counterexample :
    ¬ ((update zeroOps Msg.clear dragState).state.pivot = Option.none
        ∧ (update zeroOps Msg.clear dragState).state.selected_shape = Option.none) := by
  decide

/-- Claim C5: deserializing the serialization of any shape collection —
in particular any collection whose shapes were each built by a sequence of
`add_point` calls — reproduces the same shapes, in the same order, with the
same points in the same order and exactly equal coordinates. -/
theorem C5_serialize_roundtrip :
    (∀ (pss : List (List Vector2f)),
        deserializeShapes (serializeShapes (pss.map buildShape)) = some (pss.map buildShape))
      ∧ ∀ (l : List Shape), deserializeShapes (serializeShapes l) = some l :=
  ⟨fun _ => deserializeShapes_serializeShapes _, deserializeShapes_serializeShapes⟩

/-- Scaling with both factors zero sends every point of the shape to the
pivot. -/
theorem scale_zero_collapse (sh : Shape) (piv : Vector2f) :
    sh.scale_rel_to_point ⟨0, 0⟩ piv = ⟨sh.points.map fun _ => piv⟩ := by
  unfold Shape.scale_rel_to_point
  refine congrArg Shape.mk (List.map_congr_left fun p _ => ?_)
  cases piv
  simp

/-- The Scale-mode pointer-move branch performs its division and applies
the scale unconditionally: when the previous tracked pointer position
equals the pivot the denominator length is zero, the totalized division
yields the scale factor `0`, and the selected shape's points are all set
to the pivot rather than being left unchanged. -/
theorem scaleMove_zero_denominator (F : FloatOps) (s : AppState) (pos prev : Vector2f)
    (i : Nat)
    (hmode : s.mode = Mode.scale)
    (hdown : s.is_mouse_down = true)
    (hprev : s.mouse_pos = some prev)
    (hpiv : s.pivot = some prev)
    (hsel : s.selected_shape = some i)
    (hi : i < s.heap.length)
    (hsqrt : F.sqrt 0 = 0) :
    (update F (Msg.mouseMove pos) s).state.heap.getD i Shape.new
      = ⟨(s.heap.getD i Shape.new).points.map fun _ => prev⟩ := by
  have hz : pos - (pos - prev) - prev = (⟨0, 0⟩ : Vector2f) := by
    simp only [Vector2f.sub_def]
    congr 1 <;> ring
  have hlen : (Vector2f.mk 0 0).length F = 0 := by
    simpa [Vector2f.length] using hsqrt
  simp only [update, hmode, hdown, hprev, hpiv, hsel, if_true]
  rw [heapModify_getD_self _ _ _ hi, hz, hlen, div_zero]
  exact scale_zero_collapse _ _

/-- Claim C4 (amended): the Scale-mode pointer-move has no zero-denominator
guard.  When the scale factor's denominator is zero because the previous
tracked position `P - delta` equals the pivot, the update is NOT skipped:
the division is performed anyway and the resulting scale is applied to the
selected shape — under the exact-arithmetic embedding (division by zero
yields zero) every point of the selected shape is mapped onto the pivot. -/
theorem C4_scale_zero_denominator_not_skipped (F : FloatOps) (s : AppState)
    (pos prev : Vector2f) (i : Nat)
    (hmode : s.mode = Mode.scale)
    (hdown : s.is_mouse_down = true)
    (hprev : s.mouse_pos = some prev)
    (hpiv : s.pivot = some prev)
    (hsel : s.selected_shape = some i)
    (hi : i < s.heap.length)
    (hsqrt : F.sqrt 0 = 0) :
    (update F (Msg.mouseMove pos) s).state.heap.getD i Shape.new
      = ⟨(s.heap.getD i Shape.new).points.map fun _ => prev⟩ :=
  scaleMove_zero_denominator F s pos prev i hmode hdown hprev hpiv hsel hi hsqrt

/-- Closed witness for the amended C4 statement at the concrete drag
state. -/
theorem C4_scale_zero_denominator_not_skipped_witness :
    dragState.mode = Mode.scale
      ∧ dragState.is_mouse_down = true
      ∧ dragState.mouse_pos = some ⟨0, 0⟩
      ∧ dragState.pivot = some ⟨0, 0⟩
      ∧ dragState.selected_shape = some 0
      ∧ 0 < dragState.heap.length
      ∧ zeroOps.sqrt 0 = 0
      ∧ (update zeroOps (Msg.mouseMove ⟨3, 4⟩) dragState).state.heap.getD 0 Shape.new
          = ⟨(dragState.heap.getD 0 Shape.new).points.map fun _ => ⟨0, 0⟩⟩ :=
  ⟨rfl, rfl, rfl, rfl, rfl, by decide, rfl,
    C4_scale_zero_denominator_not_skipped zeroOps dragState ⟨3, 4⟩ ⟨0, 0⟩ 0
      rfl rfl rfl rfl rfl (by decide) rfl⟩

/-- Counterexample to claim C4 as stated: at a pointer-move in Scale mode
whose scale denominator is zero (previous position exactly on the pivot),
the selected shape's points change — the update is not skipped. -/
theorem C4_scale_zero_denominator_counterexample :
    (update zeroOps (Msg.mouseMove ⟨3, 4⟩) dragState).state.heap.getD 0 Shape.new
      ≠ dragState.heap.getD 0 Shape.new := by
  rw [scaleMove_zero_denominator zeroOps dragState ⟨3, 4⟩ ⟨0, 0⟩ 0
    rfl rfl rfl rfl rfl (by decide) rfl]
  decide

/-- Claim C7: ApplyTransform applies, to the selected shape, the staged
shift vector, then the staged scale about the current pivot, then the
staged angle (converted to radians) as a rotation about the current pivot,
in exactly that order. -/
theorem C7_applyTransform_order (F : FloatOps) (s : AppState) (i : Nat) (piv : Vector2f)
    (hsel : s.selected_shape = some i) (hpiv : s.pivot = some piv)
    (hi : i < s.heap.length) :
    (update F Msg.applyTransform s).state.heap.getD i Shape.new
      = (((s.heap.getD i Shape.new).shift s.shift_vector).scale_rel_to_point
          s.scale_vector piv).rotate_rel_to_point F (s.rotate_angle * (F.pi / 180)) piv := by
  simp only [update, hsel, hpiv, Option.getD_some]
  rw [heapModify_getD_self _ _ _ (by rw [heapModify_length, heapModify_length]; exact hi),
    heapModify_getD_self _ _ _ (by rw [heapModify_length]; exact hi),
    heapModify_getD_self _ _ _ hi]

/-- Closed witness for C7 at the concrete drag state. -/
theorem C7_applyTransform_order_witness :
    dragState.selected_shape = some 0
      ∧ dragState.pivot = some ⟨0, 0⟩
      ∧ 0 < dragState.heap.length
      ∧ (update zeroOps Msg.applyTransform dragState).state.heap.getD 0 Shape.new
          = (((dragState.heap.getD 0 Shape.new).shift dragState.shift_vector).scale_rel_to_point
              dragState.scale_vector ⟨0, 0⟩).rotate_rel_to_point zeroOps
                (dragState.rotate_angle * (zeroOps.pi / 180)) ⟨0, 0⟩ :=
  ⟨rfl, rfl, by decide,
    C7_applyTransform_order zeroOps dragState 0 ⟨0, 0⟩ rfl rfl (by decide)⟩

theorem deserializeVec_some_inv (p : Json) (v : Vector2f)
    (h : deserializeVec p = some v) : p = Json.arr [Json.num v.x, Json.num v.y] := by
  unfold deserializeVec at h
  split at h
  · next x y =>
      injection h with h
      subst h
      rfl
  · exact absurd h (by simp)

theorem deserializeVec_none_of_ne (p : Json)
    (h : ∀ x y : ℚ, p ≠ Json.arr [Json.num x, Json.num y]) : deserializeVec p = none := by
  cases hd : deserializeVec p with
  | none => rfl
  | some v => exact absurd (deserializeVec_some_inv p v hd) (h v.x v.y)

theorem traverseOpt_none_of_mem {α β : Type} (f : α → Option β) :
    ∀ (l : List α) (a : α), a ∈ l → f a = none → traverseOpt f l = none := by
  intro l
  induction l with
  | nil => intro a ha; cases ha
  | cons b t ih =>
      intro a ha hfa
      rcases List.mem_cons.mp ha with h | h
      · subst h
        simp [traverseOpt, hfa]
      · cases hfb : f b <;> simp [traverseOpt, hfb, ih a h hfa]

theorem deserializeShape_none_nonarr (e : Json) (h : ∀ l, e ≠ Json.arr l) :
    deserializeShape e = none := by
  cases e with
  | arr items => exact absurd rfl (h items)
  | null => rfl
  | bool b => rfl
  | num q => rfl
  | str t => rfl

theorem deserializeShape_none_of_bad_point (ps : List Json) (p : Json)
    (hp : p ∈ ps) (hnone : deserializeVec p = none) :
    deserializeShape (Json.arr ps) = none := by
  show (traverseOpt deserializeVec ps).map (fun l => Shape.mk l) = none
  rw [traverseOpt_none_of_mem deserializeVec ps p hp hnone]
  rfl

theorem getD_append_offset (h t : List Shape) (k : Nat) :
    (h ++ t).getD (h.length + k) Shape.new = t.getD k Shape.new := by
  induction h with
  | nil => rw [List.nil_append, List.length_nil, Nat.zero_add]
  | cons a h ih =>
      show (a :: (h ++ t)).getD (h.length + 1 + k) Shape.new = t.getD k Shape.new
      have harr : h.length + 1 + k = (h.length + k) + 1 := by omega
      rw [harr]
      exact ih

theorem range_map_getD : ∀ (l : List Shape),
    (List.range l.length).map (fun k => l.getD k Shape.new) = l
  | [] => rfl
  | a :: t => by
      rw [List.length_cons, List.range_succ_eq_map, List.map_cons, List.map_map]
      have hcomp : ((fun k => (a :: t).getD k Shape.new) ∘ Nat.succ)
          = fun k => t.getD k Shape.new := rfl
      rw [hcomp, range_map_getD t]
      rfl

/-- The fresh heap indices handed out by a successful load point exactly at
the loaded shapes, in order. -/
theorem load_contents (h t : List Shape) :
    (((List.range t.length).map fun k => h.length + k).map
      fun k => (h ++ t).getD k Shape.new) = t := by
  rw [List.map_map]
  have hcomp : ((fun k => (h ++ t).getD k Shape.new) ∘ fun k => h.length + k)
      = fun k => t.getD k Shape.new := funext fun k => getD_append_offset h t k
  rw [hcomp, range_map_getD t]

/-- Claim C6: deserialization fails on malformed input — a shape entry that
is not a list, or a point that is not a two-element numeric pair; on
failure the Load handler leaves the whole state unchanged, reports no
re-render and surfaces the user-visible alert; on success the collection is
replaced by exactly the loaded shapes. -/
theorem C6_load_malformed_rejected :
    (∀ (items : List Json) (e : Json), e ∈ items → (∀ l, e ≠ Json.arr l) →
        deserializeShapes (Json.arr items) = none)
      ∧ (∀ (items ps : List Json) (p : Json), Json.arr ps ∈ items → p ∈ ps →
          (∀ x y : ℚ, p ≠ Json.arr [Json.num x, Json.num y]) →
          deserializeShapes (Json.arr items) = none)
      ∧ (∀ (F : FloatOps) (s : AppState) (j : Json), deserializeShapes j = none →
          (update F (Msg.load j) s).state = s
            ∧ (update F (Msg.load j) s).alerts = ["Invalid JSON file"]
            ∧ (update F (Msg.load j) s).rerender = false)
      ∧ ∀ (F : FloatOps) (s : AppState) (j : Json) (shs : List Shape),
          deserializeShapes j = some shs →
          ((update F (Msg.load j) s).state.shapes.map
            fun k => (update F (Msg.load j) s).state.heap.getD k Shape.new) = shs := by
  refine ⟨?_, ?_, ?_, ?_⟩
  · intro items e he hne
    show traverseOpt deserializeShape items = none
    exact traverseOpt_none_of_mem _ items e he (deserializeShape_none_nonarr e hne)
  · intro items ps p hps hp hnp
    show traverseOpt deserializeShape items = none
    exact traverseOpt_none_of_mem _ items _ hps
      (deserializeShape_none_of_bad_point ps p hp (deserializeVec_none_of_ne p hnp))
  · intro F s j hnone
    refine ⟨?_, ?_, ?_⟩ <;> simp [update, hnone]
  · intro F s j shs hsome
    simp only [update, hsome]
    exact load_contents s.heap shs

/-- Closed witness for C6: the number document `3` is rejected and leaves
the state unchanged, and the document `[3]` (a shape entry that is not a
list) is also rejected. -/
theorem C6_load_malformed_rejected_witness :
    deserializeShapes (Json.num 3) = none
      ∧ (update zeroOps (Msg.load (Json.num 3)) dragState).state = dragState
      ∧ deserializeShapes (Json.arr [Json.num 3]) = none :=
  ⟨rfl,
    (C6_load_malformed_rejected.2.2.1 zeroOps dragState (Json.num 3) rfl).1,
    C6_load_malformed_rejected.1 [Json.num 3] (Json.num 3) (List.mem_singleton.mpr rfl)
      fun _ h => Json.noConfusion h⟩

/-- Claim C10: a successful load replaces the shape list with fresh heap
cells holding the loaded shapes but leaves the selected-shape reference and
the pivot untouched; the old selection index therefore no longer occurs in
the collection, and a subsequent ApplyTransform mutates that detached cell
while every shape of the loaded collection stays unchanged. -/
theorem C10_load_detached_selection (F : FloatOps) (s s1 : AppState) (j : Json)
    (shs : List Shape) (i : Nat)
    (hsel : s.selected_shape = some i) (hi : i < s.heap.length)
    (hparse : deserializeShapes j = some shs)
    (hs1 : (update F (Msg.load j) s).state = s1) :
    s1.selected_shape = some i
      ∧ s1.pivot = s.pivot
      ∧ i ∉ s1.shapes
      ∧ (s1.shapes.map fun k => s1.heap.getD k Shape.new) = shs
      ∧ (∀ k ∈ s1.shapes,
          (update F Msg.applyTransform s1).state.heap.getD k Shape.new
            = s1.heap.getD k Shape.new)
      ∧ (update F Msg.applyTransform s1).state.heap.getD i Shape.new
          = (((s1.heap.getD i Shape.new).shift s1.shift_vector).scale_rel_to_point
              s1.scale_vector (s1.pivot.getD ⟨0, 0⟩)).rotate_rel_to_point F
                (s1.rotate_angle * (F.pi / 180)) (s1.pivot.getD ⟨0, 0⟩) := by
  have hheap : s1.heap = s.heap ++ shs := by
    rw [← hs1]; simp [update, hparse]
  have hshapes : s1.shapes = (List.range shs.length).map fun k => s.heap.length + k := by
    rw [← hs1]; simp [update, hparse]
  have hsel1 : s1.selected_shape = some i := by
    rw [← hs1]; simp [update, hparse, hsel]
  have hpiv1 : s1.pivot = s.pivot := by
    rw [← hs1]; simp [update, hparse]
  have hmem_ne : ∀ k ∈ s1.shapes, k ≠ i := by
    intro k hk
    rw [hshapes] at hk
    obtain ⟨m, hm, rfl⟩ := List.mem_map.mp hk
    omega
  have hi1 : i < s1.heap.length := by
    rw [hheap, List.length_append]
    omega
  refine ⟨hsel1, hpiv1, ?_, ?_, ?_, ?_⟩
  · intro hmem
    exact hmem_ne i hmem rfl
  · rw [hshapes, hheap]
    exact load_contents s.heap shs
  · intro k hk
    have hne : i ≠ k := fun e => hmem_ne k hk e.symm
    simp only [update, hsel1]
    rw [heapModify_getD_ne _ _ _ _ hne, heapModify_getD_ne _ _ _ _ hne,
      heapModify_getD_ne _ _ _ _ hne]
  · simp only [update, hsel1]
    rw [heapModify_getD_self _ _ _ (by rw [heapModify_length, heapModify_length]; exact hi1),
      heapModify_getD_self _ _ _ (by rw [heapModify_length]; exact hi1),
      heapModify_getD_self _ _ _ hi1]

/-- Closed witness for C10: loading the one-shape document over the drag
state keeps index 0 selected while the collection holds only the fresh
cell 1. -/
theorem C10_load_detached_selection_witness :
    dragState.selected_shape = some 0
      ∧ 0 < dragState.heap.length
      ∧ deserializeShapes (Json.arr [Json.arr [Json.arr [Json.num 5, Json.num 6]]])
          = some [⟨[⟨5, 6⟩]⟩]
      ∧ 0 ∉ (update zeroOps
          (Msg.load (Json.arr [Json.arr [Json.arr [Json.num 5, Json.num 6]]]))
          dragState).state.shapes :=
  ⟨rfl, by decide, rfl,
    (C10_load_detached_selection zeroOps dragState _
      (Json.arr [Json.arr [Json.arr [Json.num 5, Json.num 6]]]) [⟨[⟨5, 6⟩]⟩] 0
      rfl (by decide) rfl rfl).2.2.1⟩

/-- A finite IEEE-754 binary32 value, represented exactly as the dyadic
rational `m * 2^e`.  The model covers the finite normal range: NaN,
infinities, signed zeros and subnormals are outside it, and every value
arising in the evaluations below stays well inside the normal range, where
each IEEE operation is exactly round-to-nearest-even of the exact rational
result — which is what the operations below implement. -/
structure F32 where
  m : ℤ
  e : ℤ
deriving DecidableEq, Repr

/-- Fuel-bounded bit length of a natural number (fuel-structural so that
kernel reduction works). -/
def bitlen : ℕ → ℕ → ℕ
  | 0, _ => 0
  | _, 0 => 0
  | f + 1, n => if n = 1 then 1 else bitlen f (n / 2) + 1

/-- The fraction `(a/d) / 2^e` as a numerator-denominator pair of
naturals. -/
def shiftFrac (a d : ℕ) (e : ℤ) : ℕ × ℕ :=
  if 0 ≤ e then (a, d * 2 ^ e.toNat) else (a * 2 ^ (-e).toNat, d)

/-- Adjust the exponent until the significand `⌊(a/d)/2^e⌋` lies in
`[2^23, 2^24)`; the initial guess is off by at most one, so tiny fuel
suffices. -/
def fixExp : ℕ → ℕ → ℕ → ℤ → ℤ
  | 0, _, _, e => e
  | f + 1, a, d, e =>
      let p := shiftFrac a d e
      let q := p.1 / p.2
      if q < 2 ^ 23 then fixExp f a d (e - 1)
      else if 2 ^ 24 ≤ q then fixExp f a d (e + 1)
      else e

/-- Round the positive fraction `a/d` to a 24-bit significand and exponent,
nearest-even. -/
def roundPos (a d : ℕ) : ℕ × ℤ :=
  let g : ℤ := (bitlen 256 a : ℤ) - (bitlen 256 d : ℤ) - 24
  let e := fixExp 8 a d g
  let p := shiftFrac a d e
  let q := p.1 / p.2
  let r := p.1 % p.2
  let m :=
    if p.2 < 2 * r then q + 1
    else if 2 * r < p.2 then q
    else if q % 2 = 0 then q else q + 1
  if m = 2 ^ 24 then (2 ^ 23, e + 1) else (m, e)

/-- Round the rational `n/d` to the nearest binary32 value (nearest-even).
A zero denominator is outside the model and maps to zero; no evaluation
below reaches it. -/
def roundFrac (n d : ℤ) : F32 :=
  if n = 0 ∨ d = 0 then ⟨0, 0⟩
  else
    let p := roundPos n.natAbs d.natAbs
    ⟨if decide (n < 0) == decide (d < 0) then (p.1 : ℤ) else -(p.1 : ℤ), p.2⟩

/-- The exact value of a binary32 datum as an integer fraction with a
positive power-of-two denominator. -/
def F32.toFrac (x : F32) : ℤ × ℤ :=
  if 0 ≤ x.e then (x.m * 2 ^ x.e.toNat, 1) else (x.m, 2 ^ (-x.e).toNat)

/-- Bit-exact `f32` addition: round-to-nearest-even of the exact sum. -/
def addF (x y : F32) : F32 :=
  roundFrac (x.toFrac.1 * y.toFrac.2 + y.toFrac.1 * x.toFrac.2) (x.toFrac.2 * y.toFrac.2)

/-- Bit-exact `f32` subtraction. -/
def subF (x y : F32) : F32 :=
  roundFrac (x.toFrac.1 * y.toFrac.2 - y.toFrac.1 * x.toFrac.2) (x.toFrac.2 * y.toFrac.2)

/-- Bit-exact `f32` multiplication. -/
def mulF (x y : F32) : F32 :=
  roundFrac (x.toFrac.1 * y.toFrac.1) (x.toFrac.2 * y.toFrac.2)

/-- Bit-exact `f32` division. -/
def divF (x y : F32) : F32 :=
  roundFrac (x.toFrac.1 * y.toFrac.2) (x.toFrac.2 * y.toFrac.1)

/-- Bit-exact `f32` strict greater-than (comparison of the exact values). -/
def gtF (x y : F32) : Bool :=
  decide (y.toFrac.1 * x.toFrac.2 < x.toFrac.1 * y.toFrac.2)

/-- Equality of the denoted values of two binary32 data (representation
independent). -/
def sameValF (x y : F32) : Bool :=
  x.toFrac.1 * y.toFrac.2 == y.toFrac.1 * x.toFrac.2

/-- The binary32 value of a small integer (exact, as in an `as f32`
conversion within the significand range). -/
def ofIntF (n : ℤ) : F32 := roundFrac n 1

/-- The loop body of `Shape::intersect_with_point` (`src/shape.rs` lines
58-66) evaluated in bit-exact `f32` arithmetic: the same formula as
`intersectStep`, with every operation rounded. -/
def intersectStepF (qx qy : F32) (st : (F32 × F32) × Nat) (pt : F32 × F32) :
    (F32 × F32) × Nat :=
  let prev := st.1
  let n :=
    if (gtF pt.2 qy != gtF prev.2 qy)
        && gtF (addF (divF (mulF (subF qy pt.2) (subF prev.1 pt.1)) (subF prev.2 pt.2)) pt.1) qx
    then st.2 + 1 else st.2
  (pt, n)

/-- `Shape::intersect_with_point` evaluated in bit-exact `f32` arithmetic,
over points given as pairs of binary32 coordinates. -/
def intersectF (ps : List (F32 × F32)) (qx qy : F32) : Bool :=
  match ps.getLast? with
  | none => false
  | some last => (ps.foldl (intersectStepF qx qy) (last, 0)).2 % 2 == 1

/-- One point of `Shape::scale_rel_to_point` (`src/shape.rs` lines 42-50)
evaluated in bit-exact `f32` arithmetic:
`(piv.x + (p.x - piv.x) * k.x, piv.y + (p.y - piv.y) * k.y)` with every
operation rounded. -/
def scalePointF (p piv k : F32 × F32) : F32 × F32 :=
  (addF piv.1 (mulF (subF p.1 piv.1) k.1), addF piv.2 (mulF (subF p.2 piv.2) k.2))

/-- `Shape::scale_rel_to_point` in bit-exact `f32` arithmetic. -/
def scaleShapeF (ps : List (F32 × F32)) (k piv : F32 × F32) : List (F32 × F32) :=
  ps.map fun p => scalePointF p piv k

/-- Claim C2 (bug evaluation): under bit-exact `f32` semantics the
two-point shape `[(0,0),(1,3)]` IS reported hit at the query point
`(1 - fl(2/3), 1)`.  Both degenerate edges cross the ray, but their
interpolated x-intersections round to values one ulp apart
(`0xAAAAAB·2^-25` versus `0xAAAAAA·2^-25 = q.x`), only the first exceeds
`q.x`, one crossing is counted, and the test returns true — against the
claim, and against the specification's requirement that shapes with fewer
than three points always test false (the length < 3 special case the spec
demands is absent from the code). -/
theorem C2_two_point_f32_hit :
    [(ofIntF 0, ofIntF 0), (ofIntF 1, ofIntF 3)].length ≤ 2
      ∧ intersectF [(ofIntF 0, ofIntF 0), (ofIntF 1, ofIntF 3)]
          (subF (ofIntF 1) (divF (ofIntF 2) (ofIntF 3))) (ofIntF 1) = true :=
  ⟨by decide, by
    set_option maxRecDepth 8000 in decide⟩

/-- Counterexample to claim C8 as stated: in the `f32` program scaling the
one-point shape `[(0.1f32, 0)]` about the origin by `(0.1f32, 0.1f32)` and
then by `(10, 10)` yields x-coordinate `0xCCCCCE·2^-27`, while the single
scale by `fl(0.1f32 · 10) = 1` yields `0xCCCCCD·2^-27` — the points differ
by one ulp, so the exact composition equality fails under rounding. -/
theorem C8_scale_comp_f32_counterexample :
    sameValF
      ((scaleShapeF
          (scaleShapeF [(roundFrac 1 10, ofIntF 0)] (roundFrac 1 10, roundFrac 1 10)
            (ofIntF 0, ofIntF 0))
          (ofIntF 10, ofIntF 10) (ofIntF 0, ofIntF 0)).headD (ofIntF 0, ofIntF 0)).1
      ((scaleShapeF [(roundFrac 1 10, ofIntF 0)]
          (mulF (roundFrac 1 10) (ofIntF 10), mulF (roundFrac 1 10) (ofIntF 10))
          (ofIntF 0, ofIntF 0)).headD (ofIntF 0, ofIntF 0)).1 = false := by
  set_option maxRecDepth 8000 in decide
